import Mathlib

/-!
Shallow embedding of the GWC mesh builder (model.js): a surface of revolution
with damped circular waves.  Positions, texture coordinates and triangle
indices are built by `Model.build`; per-vertex normals are synthesized by
accumulating face normals and normalizing with an epsilon fallback; the index
width (16 or 32 bit) is chosen from the vertex count.  Real JavaScript numbers
are modelled by real numbers; the integer coercion `|0` (ECMAScript ToInt32)
is modelled on rationals extended with NaN and the infinities.
-/

namespace CGW

/-- A JavaScript number as far as the `|0` coercion is concerned: a finite
value (modelled as a rational) or one of the non-finite values. -/
inductive JSNum where
  | finite (q : ℚ)
  | nan
  | posInf
  | negInf

/-- Truncation of a rational toward zero, as ECMAScript truncates a finite
number before the 32-bit wrap. -/
def jsTrunc (q : ℚ) : ℤ := q.num.tdiv q.den

/-- ECMAScript ToInt32, the semantics of the `x | 0` coercion applied in
`build` to the resolution inputs: NaN and the infinities go to 0, a finite
value is truncated toward zero and wrapped modulo 2^32 into the signed
32-bit range. -/
def toInt32 : JSNum → ℤ
  | .finite q =>
      let t := jsTrunc q
      let m := t % 4294967296
      if 2147483648 ≤ m then m - 4294967296 else m
  | .nan => 0
  | .posInf => 0
  | .negInf => 0

/-- Effective radial resolution: the source computes Nr as max(2, p.Nr | 0). -/
def effNr (x : JSNum) : ℕ := (max 2 (toInt32 x)).toNat

/-- Effective angular resolution: the source computes Nu as max(3, p.Nu | 0). -/
def effNu (x : JSNum) : ℕ := (max 3 (toInt32 x)).toNat

/-- The parameter object handed to `Model.build`: the surface coefficients
a, n, m, b, phi and the requested grid resolution Nr, Nu. -/
structure Params where
  a : ℝ
  n : ℝ
  m : ℝ
  b : ℝ
  phi : ℝ
  Nr : JSNum
  Nu : JSNum

namespace Model

/-- Model.surfacePoint: x = r cos u, y = r sin u,
z = a exp(-n r) sin(w r + phi) with w = m pi / b. -/
noncomputable def surfacePoint (r u : ℝ) (p : Params) : ℝ × ℝ × ℝ :=
  let w := p.m * Real.pi / p.b
  let z := p.a * Real.exp (-p.n * r) * Real.sin (w * r + p.phi)
  let x := r * Real.cos u
  let y := r * Real.sin u
  (x, y, z)

/-- Normalized radial parameter of row i: t = i / (Nr - 1). -/
noncomputable def tParam (Nr i : ℕ) : ℝ := (i : ℝ) / ((Nr : ℝ) - 1)

/-- Radius of row i: r = rMin + t (rMax - rMin) with rMin = 0, rMax = b. -/
noncomputable def radiusAt (b : ℝ) (Nr i : ℕ) : ℝ := 0 + tParam Nr i * (b - 0)

/-- Normalized angular parameter of column j: s = j / (Nu - 1). -/
noncomputable def sParam (Nu j : ℕ) : ℝ := (j : ℝ) / ((Nu : ℝ) - 1)

/-- Angle of column j: u = uMin + s (uMax - uMin) with uMin = 0,
uMax = 2 pi. -/
noncomputable def angleAt (Nu j : ℕ) : ℝ := 0 + sParam Nu j * (Real.pi * 2 - 0)

/-- The flat position buffer written by the double loop of `build`:
row-major over i < Nr, j < Nu, three floats x, y, z per vertex. -/
noncomputable def buildPositions (p : Params) (Nr Nu : ℕ) : List ℝ :=
  (List.range Nr).flatMap fun i =>
    (List.range Nu).flatMap fun j =>
      [(surfacePoint (radiusAt p.b Nr i) (angleAt Nu j) p).1,
       (surfacePoint (radiusAt p.b Nr i) (angleAt Nu j) p).2.1,
       (surfacePoint (radiusAt p.b Nr i) (angleAt Nu j) p).2.2]

/-- The flat texture-coordinate buffer written by the same loop: two floats
s, t per vertex. -/
noncomputable def buildUVs (Nr Nu : ℕ) : List ℝ :=
  (List.range Nr).flatMap fun i =>
    (List.range Nu).flatMap fun j =>
      [sParam Nu j, tParam Nr i]

/-- Row-major vertex id of the grid point (i, j): vid(i, j) = i Nu + j. -/
def vid (Nu i j : ℕ) : ℕ := i * Nu + j

/-- The index buffer: for every quad (i, j) with i < Nr-1, j < Nu-1 the two
triangles a-b-c and b-d-c, a = vid(i,j), b = vid(i+1,j), c = vid(i,j+1),
d = vid(i+1,j+1). -/
def buildIndices (Nr Nu : ℕ) : List ℕ :=
  (List.range (Nr - 1)).flatMap fun i =>
    (List.range (Nu - 1)).flatMap fun j =>
      [vid Nu i j, vid Nu (i + 1) j, vid Nu i (j + 1),
       vid Nu (i + 1) j, vid Nu (i + 1) (j + 1), vid Nu i (j + 1)]

/-- Read one float of the position buffer, pos[k]. -/
noncomputable def posComp (pos : List ℝ) (k : ℕ) : ℝ := pos.getD k 0

/-- The three floats of vertex v in a flat 3-stride buffer:
(pos[v*3], pos[v*3+1], pos[v*3+2]). -/
noncomputable def posVec (pos : List ℝ) (v : ℕ) : ℝ × ℝ × ℝ :=
  (posComp pos (v * 3), posComp pos (v * 3 + 1), posComp pos (v * 3 + 2))

/-- The unnormalized face normal of a triangle: n = e1 x e2 with
e1 = p1 - p0 and e2 = p2 - p0, exactly the component formulas of the
accumulation loop. -/
noncomputable def faceNormal (pos : List ℝ) (i0 i1 i2 : ℕ) : ℝ × ℝ × ℝ :=
  let p0 := posVec pos i0
  let p1 := posVec pos i1
  let p2 := posVec pos i2
  let e1x := p1.1 - p0.1
  let e1y := p1.2.1 - p0.2.1
  let e1z := p1.2.2 - p0.2.2
  let e2x := p2.1 - p0.1
  let e2y := p2.2.1 - p0.2.1
  let e2z := p2.2.2 - p0.2.2
  (e1y * e2z - e1z * e2y, e1z * e2x - e1x * e2z, e1x * e2y - e1y * e2x)

/-- Add a face normal into the accumulator slot of vertex v: the three
+= writes nrm[v*3] += nx, nrm[v*3+1] += ny, nrm[v*3+2] += nz. -/
noncomputable def addAt (acc : ℕ → ℝ × ℝ × ℝ) (v : ℕ) (d : ℝ × ℝ × ℝ) :
    ℕ → ℝ × ℝ × ℝ :=
  fun w =>
    if w = v then ((acc v).1 + d.1, (acc v).2.1 + d.2.1, (acc v).2.2 + d.2.2)
    else acc w

/-- The accumulation loop over the index buffer, three indices at a time:
each triangle's face normal is added into its three vertices. -/
noncomputable def accumFaces (pos : List ℝ) :
    List ℕ → (ℕ → ℝ × ℝ × ℝ) → (ℕ → ℝ × ℝ × ℝ)
  | i0 :: i1 :: i2 :: rest, acc =>
      accumFaces pos rest
        (addAt (addAt (addAt acc i0 (faceNormal pos i0 i1 i2)) i1
            (faceNormal pos i0 i1 i2)) i2 (faceNormal pos i0 i1 i2))
  | _, acc => acc

/-- The zero-initialized normal accumulator (a fresh Float32Array). -/
noncomputable def accumInit : ℕ → ℝ × ℝ × ℝ := fun _ => (0, 0, 0)

/-- The final normalize pass on one accumulated vector: scale to unit length
when the length exceeds 1e-12, otherwise fall back to (0, 0, 1). -/
noncomputable def normalizeVec (c : ℝ × ℝ × ℝ) : ℝ × ℝ × ℝ :=
  let len := Real.sqrt (c.1 ^ 2 + c.2.1 ^ 2 + c.2.2 ^ 2)
  if 1e-12 < len then (c.1 / len, c.2.1 / len, c.2.2 / len) else (0, 0, 1)

/-- The synthesized normal of vertex v: accumulate all face normals, then
normalize with the epsilon fallback. -/
noncomputable def vertexNormals (pos : List ℝ) (idx : List ℕ) (v : ℕ) :
    ℝ × ℝ × ℝ :=
  normalizeVec (accumFaces pos idx accumInit v)

/-- The flat normal buffer: three floats per vertex for v < vertCount. -/
noncomputable def buildNormals (pos : List ℝ) (idx : List ℕ)
    (vertCount : ℕ) : List ℝ :=
  (List.range vertCount).flatMap fun v =>
    [(vertexNormals pos idx v).1, (vertexNormals pos idx v).2.1,
     (vertexNormals pos idx v).2.2]

/-- The mesh artifact stored on the model by `build`: the flat buffers, the
index count, and whether a Uint32Array was chosen for the indices. -/
structure Mesh where
  positions : List ℝ
  normals : List ℝ
  texcoords : List ℝ
  indices : List ℕ
  indexCount : ℕ
  useUint32 : Bool

/-- Model.build: clamp the resolution (Nr = max(2, p.Nr|0),
Nu = max(3, p.Nu|0)), generate positions and UVs over the grid, generate the
index buffer choosing Uint32 exactly when vertCount > 65535, accumulate and
normalize the vertex normals, and store the buffers. -/
noncomputable def build (p : Params) : Mesh :=
  let Nr := effNr p.Nr
  let Nu := effNu p.Nu
  let vertCount := Nr * Nu
  let pos := buildPositions p Nr Nu
  let uv := buildUVs Nr Nu
  let idx := buildIndices Nr Nu
  let nrm := buildNormals pos idx vertCount
  { positions := pos
    normals := nrm
    texcoords := uv
    indices := idx
    indexCount := idx.length
    useUint32 := decide (65535 < vertCount) }

/-- The three floats of the stored normal of vertex v:
(nrm[v*3], nrm[v*3+1], nrm[v*3+2]). -/
noncomputable def meshNormalAt (msh : Mesh) (v : ℕ) : ℝ × ℝ × ℝ :=
  (msh.normals.getD (v * 3) 0, msh.normals.getD (v * 3 + 1) 0,
   msh.normals.getD (v * 3 + 2) 0)

/-- The Euclidean length of a vector, the measure Math.hypot applies. -/
noncomputable def norm3 (c : ℝ × ℝ × ℝ) : ℝ :=
  Real.sqrt (c.1 ^ 2 + c.2.1 ^ 2 + c.2.2 ^ 2)

/-- The two GL index types `upload` can select. -/
inductive IndexType where
  | unsignedShort
  | unsignedInt

/-- Model.upload resolves the index type from the runtime class of the index
buffer: UNSIGNED_INT for a Uint32Array, UNSIGNED_SHORT otherwise. -/
def uploadIndexType (msh : Mesh) : IndexType :=
  if msh.useUint32 then .unsignedInt else .unsignedShort

/-- Model.upload warns exactly when a Uint32Array index buffer meets a GL
context without the OES_element_index_uint extension. -/
def uploadWarns (msh : Mesh) (extSupported : Bool) : Bool :=
  msh.useUint32 && !extSupported

end Model

/-- Index list written the way the specification words it: the concatenation
over i, j of the two triangles (a, b, c) and (b, d, c) with corner labels
a = i Nu + j, b = (i+1) Nu + j, c = i Nu + (j+1), d = (i+1) Nu + (j+1),
to be compared with the index buffer the source builds. -/
def specTriangleList (Nr Nu : ℕ) : List ℕ :=
  (List.range (Nr - 1)).flatMap fun i =>
    (List.range (Nu - 1)).flatMap fun j =>
      [i * Nu + j, (i + 1) * Nu + j, i * Nu + (j + 1),
       (i + 1) * Nu + j, (i + 1) * Nu + (j + 1), i * Nu + (j + 1)]

/-- A concrete parameter set for evaluations: a=1, n=0, m=1, b=1, phi=0 and
the minimal resolution Nr=2, Nu=3. -/
noncomputable def sampleParams : Params :=
  { a := 1, n := 0, m := 1, b := 1, phi := 0
    Nr := JSNum.finite 2, Nu := JSNum.finite 3 }

/-- A concrete parameter set whose surface is not flat at the seam: a=1, n=0,
m=1, b=1, phi = pi/2, resolution Nr=2, Nu=3.  Its height profile is
z(r) = sin(pi r + pi/2), giving z=1 on the inner ring and z=-1 on the
outer one. -/
noncomputable def seamParams : Params :=
  { a := 1, n := 0, m := 1, b := 1, phi := Real.pi / 2
    Nr := JSNum.finite 2, Nu := JSNum.finite 3 }

/-! Generic indexing lemmas for flat buffers built by nested loops over
ranges, where every iteration appends a chunk of the same length. -/

/-- Length of a flat buffer of constant-size chunks. -/
theorem flatMap_range_length {α : Type} (f : ℕ → List α) (c : ℕ)
    (hc : ∀ i, (f i).length = c) (N : ℕ) :
    ((List.range N).flatMap f).length = N * c := by
  induction N with
  | zero => simp
  | succ n ih =>
      rw [List.range_succ, List.flatMap_append, List.length_append, ih]
      simp [hc]
      ring

/-- Random access into a flat buffer of constant-size chunks: entry r of
chunk k sits at offset c k + r. -/
theorem flatMap_range_getElem {α : Type} (f : ℕ → List α) (c : ℕ)
    (hc : ∀ i, (f i).length = c) (N : ℕ) :
    ∀ k r : ℕ, k < N → r < c →
      ((List.range N).flatMap f)[c * k + r]? = (f k)[r]? := by
  induction N with
  | zero => intro k r hk _; omega
  | succ n ih =>
      intro k r hk hr
      rw [List.range_succ, List.flatMap_append]
      have hlen : ((List.range n).flatMap f).length = n * c :=
        flatMap_range_length f c hc n
      rcases Nat.lt_or_ge k n with h | h
      · have hpos : c * k + r < ((List.range n).flatMap f).length := by
          rw [hlen, Nat.mul_comm n c]
          calc c * k + r < c * k + c := Nat.add_lt_add_left hr _
            _ = c * (k + 1) := (Nat.mul_succ c k).symm
            _ ≤ c * n := Nat.mul_le_mul_left c h
        rw [List.getElem?_append, if_pos hpos]
        exact ih k r h hr
      · have hk2 : k = n := by omega
        subst hk2
        have hge : ((List.range k).flatMap f).length ≤ c * k + r := by
          rw [hlen, Nat.mul_comm k c]
          exact Nat.le_add_right _ _
        rw [List.getElem?_append_right hge, hlen]
        have hsub : c * k + r - k * c = r := by
          rw [Nat.mul_comm k c, Nat.add_sub_cancel_left]
        rw [hsub, List.flatMap_cons, List.flatMap_nil, List.append_nil]

/-- Length of a flat buffer with two entries per chunk. -/
theorem flatMap_pair_length {α : Type} (g1 g2 : ℕ → α) (N : ℕ) :
    ((List.range N).flatMap fun v => [g1 v, g2 v]).length = N * 2 :=
  flatMap_range_length (fun v => [g1 v, g2 v]) 2 (fun _ => rfl) N

/-- Length of a flat buffer with three entries per chunk. -/
theorem flatMap_triple_length {α : Type} (g1 g2 g3 : ℕ → α) (N : ℕ) :
    ((List.range N).flatMap fun v => [g1 v, g2 v, g3 v]).length = N * 3 :=
  flatMap_range_length (fun v => [g1 v, g2 v, g3 v]) 3 (fun _ => rfl) N

/-- Length of a flat buffer with six entries per chunk. -/
theorem flatMap_six_length {α : Type} (g1 g2 g3 g4 g5 g6 : ℕ → α) (N : ℕ) :
    ((List.range N).flatMap
      fun v => [g1 v, g2 v, g3 v, g4 v, g5 v, g6 v]).length = N * 6 :=
  flatMap_range_length (fun v => [g1 v, g2 v, g3 v, g4 v, g5 v, g6 v]) 6
    (fun _ => rfl) N

/-- Random access into a flat buffer with two entries per chunk. -/
theorem flatMap_pair_getElem {α : Type} (g1 g2 : ℕ → α) (N k r : ℕ)
    (hk : k < N) (hr : r < 2) :
    ((List.range N).flatMap fun v => [g1 v, g2 v])[2 * k + r]? =
      [g1 k, g2 k][r]? :=
  flatMap_range_getElem (fun v => [g1 v, g2 v]) 2 (fun _ => rfl) N k r hk hr

/-- Random access into a flat buffer with three entries per chunk. -/
theorem flatMap_triple_getElem {α : Type} (g1 g2 g3 : ℕ → α) (N k r : ℕ)
    (hk : k < N) (hr : r < 3) :
    ((List.range N).flatMap fun v => [g1 v, g2 v, g3 v])[3 * k + r]? =
      [g1 k, g2 k, g3 k][r]? :=
  flatMap_range_getElem (fun v => [g1 v, g2 v, g3 v]) 3 (fun _ => rfl) N k r
    hk hr

/-! Facts about the clamped resolution and the ToInt32 model. -/

/-- The clamped radial resolution is at least 2. -/
theorem two_le_effNr (x : JSNum) : 2 ≤ effNr x := by
  have h : (2 : ℤ) ≤ max 2 (toInt32 x) := le_max_left _ _
  unfold effNr
  omega

/-- The clamped angular resolution is at least 3. -/
theorem three_le_effNu (x : JSNum) : 3 ≤ effNu x := by
  have h : (3 : ℤ) ≤ max 3 (toInt32 x) := le_max_left _ _
  unfold effNu
  omega

/-- On nonnegative rationals, truncation toward zero is the floor. -/
theorem jsTrunc_of_nonneg (q : ℚ) (h : 0 ≤ q) : jsTrunc q = ⌊q⌋ := by
  unfold jsTrunc
  rw [Rat.floor_def]
  exact Int.tdiv_eq_ediv (Rat.num_nonneg.mpr h) (Int.natCast_nonneg _)

/-- On negative rationals, truncation toward zero is the ceiling. -/
theorem jsTrunc_of_neg (q : ℚ) (h : q < 0) : jsTrunc q = ⌈q⌉ := by
  have hnum : q.num < 0 := Rat.num_neg.mpr h
  unfold jsTrunc
  rw [show q.num = -(-q.num) from (neg_neg q.num).symm, Int.neg_tdiv,
    Int.tdiv_eq_ediv (by omega) (Int.natCast_nonneg _),
    show ⌈q⌉ = -⌊-q⌋ by rw [Int.floor_neg, neg_neg], Rat.floor_def,
    Rat.num_neg_eq_neg_num, Rat.den_neg_eq_den]

/-- Truncation fixes the integers. -/
theorem jsTrunc_intCast (z : ℤ) : jsTrunc ((z : ℚ)) = z := by
  rcases le_or_lt 0 z with h | h
  · rw [jsTrunc_of_nonneg _ (by exact_mod_cast h), Int.floor_intCast]
  · rw [jsTrunc_of_neg _ (by exact_mod_cast h), Int.ceil_intCast]

/-! Buffer lengths. -/

/-- Length of the position buffer. -/
theorem buildPositions_length (p : Params) (Nr Nu : ℕ) :
    (Model.buildPositions p Nr Nu).length = 3 * (Nr * Nu) := by
  unfold Model.buildPositions
  rw [show 3 * (Nr * Nu) = Nr * (Nu * 3) by ring]
  exact flatMap_range_length _ (Nu * 3)
    (fun i => flatMap_triple_length _ _ _ Nu) Nr

/-- Length of the texture-coordinate buffer. -/
theorem buildUVs_length (Nr Nu : ℕ) :
    (Model.buildUVs Nr Nu).length = 2 * (Nr * Nu) := by
  unfold Model.buildUVs
  rw [show 2 * (Nr * Nu) = Nr * (Nu * 2) by ring]
  exact flatMap_range_length _ (Nu * 2)
    (fun i => flatMap_pair_length _ _ Nu) Nr

/-- Length of the index buffer. -/
theorem buildIndices_length (Nr Nu : ℕ) :
    (Model.buildIndices Nr Nu).length = 6 * ((Nr - 1) * (Nu - 1)) := by
  unfold Model.buildIndices
  rw [show 6 * ((Nr - 1) * (Nu - 1)) = (Nr - 1) * ((Nu - 1) * 6) by ring]
  exact flatMap_range_length _ ((Nu - 1) * 6)
    (fun i => flatMap_six_length _ _ _ _ _ _ (Nu - 1)) (Nr - 1)

/-- Length of the normal buffer. -/
theorem buildNormals_length (pos : List ℝ) (idx : List ℕ) (n : ℕ) :
    (Model.buildNormals pos idx n).length = 3 * n := by
  unfold Model.buildNormals
  rw [show 3 * n = n * 3 by ring]
  exact flatMap_triple_length _ _ _ n

/-! Random access into the buffers. -/

/-- Entry r of vertex (i, j) in the position buffer. -/
theorem buildPositions_getElem (p : Params) (Nr Nu i j r : ℕ)
    (hi : i < Nr) (hj : j < Nu) (hr : r < 3) :
    (Model.buildPositions p Nr Nu)[3 * (i * Nu + j) + r]? =
      [(Model.surfacePoint (Model.radiusAt p.b Nr i) (Model.angleAt Nu j) p).1,
       (Model.surfacePoint (Model.radiusAt p.b Nr i) (Model.angleAt Nu j) p).2.1,
       (Model.surfacePoint (Model.radiusAt p.b Nr i) (Model.angleAt Nu j) p).2.2][r]? := by
  have hidx : 3 * (i * Nu + j) + r = Nu * 3 * i + (3 * j + r) := by ring
  unfold Model.buildPositions
  rw [hidx]
  exact (flatMap_range_getElem _ (Nu * 3)
      (fun ii => flatMap_triple_length _ _ _ Nu) Nr i (3 * j + r)
      hi (by omega)).trans
    (flatMap_triple_getElem _ _ _ Nu j r hj hr)

/-- Entry r of vertex (i, j) in the texture-coordinate buffer. -/
theorem buildUVs_getElem (Nr Nu i j r : ℕ)
    (hi : i < Nr) (hj : j < Nu) (hr : r < 2) :
    (Model.buildUVs Nr Nu)[2 * (i * Nu + j) + r]? =
      [Model.sParam Nu j, Model.tParam Nr i][r]? := by
  have hidx : 2 * (i * Nu + j) + r = Nu * 2 * i + (2 * j + r) := by ring
  unfold Model.buildUVs
  rw [hidx]
  exact (flatMap_range_getElem _ (Nu * 2)
      (fun ii => flatMap_pair_length _ _ Nu) Nr i (2 * j + r)
      hi (by omega)).trans
    (flatMap_pair_getElem _ _ Nu j r hj hr)

/-- Entry r of vertex v in the normal buffer. -/
theorem buildNormals_getElem (pos : List ℝ) (idx : List ℕ) (n v r : ℕ)
    (hv : v < n) (hr : r < 3) :
    (Model.buildNormals pos idx n)[3 * v + r]? =
      [(Model.vertexNormals pos idx v).1, (Model.vertexNormals pos idx v).2.1,
       (Model.vertexNormals pos idx v).2.2][r]? := by
  unfold Model.buildNormals
  exact flatMap_triple_getElem _ _ _ n v r hv hr

/-- The three floats of grid vertex (i, j) in the position buffer are exactly
the sampled surface point of row i and column j. -/
theorem posVec_build (p : Params) (Nr Nu i j : ℕ) (hi : i < Nr) (hj : j < Nu) :
    Model.posVec (Model.buildPositions p Nr Nu) (i * Nu + j) =
      Model.surfacePoint (Model.radiusAt p.b Nr i) (Model.angleAt Nu j) p := by
  have h0 := buildPositions_getElem p Nr Nu i j 0 hi hj (by omega)
  have h1 := buildPositions_getElem p Nr Nu i j 1 hi hj (by omega)
  have h2 := buildPositions_getElem p Nr Nu i j 2 hi hj (by omega)
  unfold Model.posVec Model.posComp
  rw [List.getD_eq_getElem?_getD, List.getD_eq_getElem?_getD,
    List.getD_eq_getElem?_getD,
    show (i * Nu + j) * 3 = 3 * (i * Nu + j) + 0 by ring]
  rw [show 3 * (i * Nu + j) + 0 + 1 = 3 * (i * Nu + j) + 1 by ring,
    show 3 * (i * Nu + j) + 0 + 2 = 3 * (i * Nu + j) + 2 by ring,
    h0, h1, h2]
  rfl

/-- The stored normal of vertex v is the synthesized vertex normal. -/
theorem meshNormalAt_build (p : Params) (v : ℕ)
    (hv : v < effNr p.Nr * effNu p.Nu) :
    Model.meshNormalAt (Model.build p) v =
      Model.vertexNormals (Model.buildPositions p (effNr p.Nr) (effNu p.Nu))
        (Model.buildIndices (effNr p.Nr) (effNu p.Nu)) v := by
  have h0 := buildNormals_getElem
    (Model.buildPositions p (effNr p.Nr) (effNu p.Nu))
    (Model.buildIndices (effNr p.Nr) (effNu p.Nu))
    (effNr p.Nr * effNu p.Nu) v 0 hv (by omega)
  have h1 := buildNormals_getElem
    (Model.buildPositions p (effNr p.Nr) (effNu p.Nu))
    (Model.buildIndices (effNr p.Nr) (effNu p.Nu))
    (effNr p.Nr * effNu p.Nu) v 1 hv (by omega)
  have h2 := buildNormals_getElem
    (Model.buildPositions p (effNr p.Nr) (effNu p.Nu))
    (Model.buildIndices (effNr p.Nr) (effNu p.Nu))
    (effNr p.Nr * effNu p.Nu) v 2 hv (by omega)
  show (((Model.build p).normals).getD (v * 3) 0,
    ((Model.build p).normals).getD (v * 3 + 1) 0,
    ((Model.build p).normals).getD (v * 3 + 2) 0) = _
  have hnrm : (Model.build p).normals =
      Model.buildNormals (Model.buildPositions p (effNr p.Nr) (effNu p.Nu))
        (Model.buildIndices (effNr p.Nr) (effNu p.Nu))
        (effNr p.Nr * effNu p.Nu) := rfl
  rw [hnrm, List.getD_eq_getElem?_getD, List.getD_eq_getElem?_getD,
    List.getD_eq_getElem?_getD,
    show v * 3 = 3 * v + 0 by ring]
  rw [show 3 * v + 0 + 1 = 3 * v + 1 by ring,
    show 3 * v + 0 + 2 = 3 * v + 2 by ring,
    h0, h1, h2]
  rfl

/-- Row-major vertex ids of in-range grid points are below the vertex
count. -/
theorem vid_lt (Nr Nu a b : ℕ) (ha : a < Nr) (hb : b < Nu) :
    Model.vid Nu a b < Nr * Nu := by
  unfold Model.vid
  calc a * Nu + b < a * Nu + Nu := Nat.add_lt_add_left hb _
    _ = (a + 1) * Nu := (Nat.succ_mul a Nu).symm
    _ ≤ Nr * Nu := Nat.mul_le_mul_right Nu ha

/-- The normalize pass always yields a unit vector: either the accumulated
vector was long enough and is scaled to unit length, or the fallback (0,0,1)
is returned, itself of unit length. -/
theorem norm3_normalizeVec (c : ℝ × ℝ × ℝ) :
    Model.norm3 (Model.normalizeVec c) = 1 := by
  unfold Model.norm3 Model.normalizeVec
  by_cases h : (1e-12 : ℝ) < Real.sqrt (c.1 ^ 2 + c.2.1 ^ 2 + c.2.2 ^ 2)
  · rw [if_pos h]
    have hS : (0 : ℝ) ≤ c.1 ^ 2 + c.2.1 ^ 2 + c.2.2 ^ 2 := by positivity
    have hlenpos : (0 : ℝ) < Real.sqrt (c.1 ^ 2 + c.2.1 ^ 2 + c.2.2 ^ 2) := by
      have : (0 : ℝ) < 1e-12 := by norm_num
      linarith
    have hsq : Real.sqrt (c.1 ^ 2 + c.2.1 ^ 2 + c.2.2 ^ 2) ^ 2 =
        c.1 ^ 2 + c.2.1 ^ 2 + c.2.2 ^ 2 := Real.sq_sqrt hS
    have hSpos : (0 : ℝ) < c.1 ^ 2 + c.2.1 ^ 2 + c.2.2 ^ 2 :=
      Real.sqrt_pos.mp hlenpos
    have hne : Real.sqrt (c.1 ^ 2 + c.2.1 ^ 2 + c.2.2 ^ 2) ≠ 0 :=
      ne_of_gt hlenpos
    have hrw : (c.1 / Real.sqrt (c.1 ^ 2 + c.2.1 ^ 2 + c.2.2 ^ 2)) ^ 2 +
        (c.2.1 / Real.sqrt (c.1 ^ 2 + c.2.1 ^ 2 + c.2.2 ^ 2)) ^ 2 +
        (c.2.2 / Real.sqrt (c.1 ^ 2 + c.2.1 ^ 2 + c.2.2 ^ 2)) ^ 2 = 1 := by
      rw [div_pow, div_pow, div_pow, div_add_div_same, div_add_div_same, hsq,
        div_self (ne_of_gt hSpos)]
    rw [hrw, Real.sqrt_one]
  · rw [if_neg h]
    norm_num

/-! The claims. -/

/-- Claim C1: for every resolution input, after clamping to the effective Nr
and Nu, build produces buffers with positions.length = 3 Nr Nu,
uvs.length = 2 Nr Nu, indices.length = 6 (Nr-1) (Nu-1), and indexCount equal
to indices.length. -/
theorem claim_C1 (p : Params) :
    (Model.build p).positions.length = 3 * (effNr p.Nr * effNu p.Nu) ∧
    (Model.build p).texcoords.length = 2 * (effNr p.Nr * effNu p.Nu) ∧
    (Model.build p).indices.length =
      6 * ((effNr p.Nr - 1) * (effNu p.Nu - 1)) ∧
    (Model.build p).indexCount = (Model.build p).indices.length := by
  exact ⟨buildPositions_length p _ _, buildUVs_length _ _,
    buildIndices_length _ _, rfl⟩

/-- Claim C2: for i < Nr and j < Nu the vertex at row-major index i Nu + j
has position (r cos u, r sin u, a exp(-n r) sin((m pi / b) r + phi)) with
r = b i / (Nr - 1) and u = 2 pi j / (Nu - 1); the endpoints r = 0, r = b,
u = 0 and u = 2 pi are all included. -/
theorem claim_C2 (p : Params) (i j : ℕ)
    (hi : i < effNr p.Nr) (hj : j < effNu p.Nu) :
    ((Model.build p).positions[3 * (i * effNu p.Nu + j)]? =
      some (p.b * i / ((effNr p.Nr : ℝ) - 1) *
        Real.cos (2 * Real.pi * j / ((effNu p.Nu : ℝ) - 1))) ∧
    (Model.build p).positions[3 * (i * effNu p.Nu + j) + 1]? =
      some (p.b * i / ((effNr p.Nr : ℝ) - 1) *
        Real.sin (2 * Real.pi * j / ((effNu p.Nu : ℝ) - 1))) ∧
    (Model.build p).positions[3 * (i * effNu p.Nu + j) + 2]? =
      some (p.a * Real.exp (-p.n * (p.b * i / ((effNr p.Nr : ℝ) - 1))) *
        Real.sin (p.m * Real.pi / p.b * (p.b * i / ((effNr p.Nr : ℝ) - 1))
          + p.phi))) ∧
    (i = 0 → p.b * i / ((effNr p.Nr : ℝ) - 1) = 0) ∧
    (i = effNr p.Nr - 1 → p.b * i / ((effNr p.Nr : ℝ) - 1) = p.b) ∧
    (j = 0 → 2 * Real.pi * j / ((effNu p.Nu : ℝ) - 1) = 0) ∧
    (j = effNu p.Nu - 1 →
      2 * Real.pi * j / ((effNu p.Nu : ℝ) - 1) = 2 * Real.pi) := by
  have hNr2 : 2 ≤ effNr p.Nr := two_le_effNr p.Nr
  have hNu3 : 3 ≤ effNu p.Nu := three_le_effNu p.Nu
  have hNrR : ((effNr p.Nr : ℝ)) - 1 ≠ 0 := by
    have h : (2 : ℝ) ≤ (effNr p.Nr : ℝ) := by exact_mod_cast hNr2
    intro hc; linarith
  have hNuR : ((effNu p.Nu : ℝ)) - 1 ≠ 0 := by
    have h : (3 : ℝ) ≤ (effNu p.Nu : ℝ) := by exact_mod_cast hNu3
    intro hc; linarith
  have hrad : Model.radiusAt p.b (effNr p.Nr) i =
      p.b * i / ((effNr p.Nr : ℝ) - 1) := by
    unfold Model.radiusAt Model.tParam; ring
  have hang : Model.angleAt (effNu p.Nu) j =
      2 * Real.pi * j / ((effNu p.Nu : ℝ) - 1) := by
    unfold Model.angleAt Model.sParam; ring
  have h0 := buildPositions_getElem p (effNr p.Nr) (effNu p.Nu) i j 0 hi hj
    (by omega)
  have h1 := buildPositions_getElem p (effNr p.Nr) (effNu p.Nu) i j 1 hi hj
    (by omega)
  have h2 := buildPositions_getElem p (effNr p.Nr) (effNu p.Nu) i j 2 hi hj
    (by omega)
  refine ⟨⟨?_, ?_, ?_⟩, ?_, ?_, ?_, ?_⟩
  · rw [show 3 * (i * effNu p.Nu + j) = 3 * (i * effNu p.Nu + j) + 0
      by ring]
    rw [show (Model.build p).positions =
      Model.buildPositions p (effNr p.Nr) (effNu p.Nu) from rfl, h0]
    simp only [List.getElem?_cons_zero, Option.some.injEq]
    simp only [Model.surfacePoint]
    rw [hrad, hang]
  · rw [show (Model.build p).positions =
      Model.buildPositions p (effNr p.Nr) (effNu p.Nu) from rfl, h1]
    simp only [List.getElem?_cons_succ, List.getElem?_cons_zero,
      Option.some.injEq]
    simp only [Model.surfacePoint]
    rw [hrad, hang]
  · rw [show (Model.build p).positions =
      Model.buildPositions p (effNr p.Nr) (effNu p.Nu) from rfl, h2]
    simp only [List.getElem?_cons_succ, List.getElem?_cons_zero,
      Option.some.injEq]
    simp only [Model.surfacePoint]
    rw [hrad]
  · intro h; subst h; simp
  · intro h; subst h
    rw [show (((effNr p.Nr - 1 : ℕ) : ℝ)) = (effNr p.Nr : ℝ) - 1 by
        rw [Nat.cast_sub (by omega), Nat.cast_one],
      mul_div_assoc, div_self hNrR, mul_one]
  · intro h; subst h; simp
  · intro h; subst h
    rw [show (((effNu p.Nu - 1 : ℕ) : ℝ)) = (effNu p.Nu : ℝ) - 1 by
        rw [Nat.cast_sub (by omega), Nat.cast_one],
      mul_div_assoc, div_self hNuR, mul_one]

/-- Claim C3: the index buffer is exactly, in deterministic order, the
concatenation over the quads of the two triangles (a,b,c) then (b,d,c) with
a = i Nu + j, b = (i+1) Nu + j, c = i Nu + (j+1), d = (i+1) Nu + (j+1) under
row-major vertex addressing. -/
theorem claim_C3 (p : Params) :
    (Model.build p).indices = specTriangleList (effNr p.Nr) (effNu p.Nu) :=
  rfl

/-- Claim C4: every value stored in the index buffer is below the vertex
count Nr Nu, so dereferencing the position buffer at entries 3x, 3x+1, 3x+2
during normal accumulation stays in bounds. -/
theorem claim_C4 (p : Params) (x : ℕ) (hx : x ∈ (Model.build p).indices) :
    x < effNr p.Nr * effNu p.Nu ∧
    3 * x + 2 < (Model.build p).positions.length := by
  have hx2 : x ∈ Model.buildIndices (effNr p.Nr) (effNu p.Nu) := hx
  unfold Model.buildIndices at hx2
  simp only [List.mem_flatMap, List.mem_range] at hx2
  obtain ⟨i, hi, j, hj, hmem⟩ := hx2
  simp only [List.mem_cons, List.not_mem_nil, or_false] at hmem
  have hxlt : x < effNr p.Nr * effNu p.Nu := by
    rcases hmem with h | h | h | h | h | h <;>
      (subst h; exact vid_lt _ _ _ _ (by omega) (by omega))
  have hlen : (Model.build p).positions.length =
      3 * (effNr p.Nr * effNu p.Nu) := buildPositions_length p _ _
  exact ⟨hxlt, by omega⟩

/-- Claim C5: the normal buffer is produced by accumulating, per triangle,
the unnormalized cross product (p1-p0) x (p2-p0) into the triangle's three
vertices and then normalizing with the 1e-12 threshold and (0,0,1) fallback;
consequently every stored normal is unit length or exactly (0,0,1), and a
zero-length normal is impossible. -/
theorem claim_C5 (p : Params) (v : ℕ) (hv : v < effNr p.Nr * effNu p.Nu) :
    (Model.build p).normals =
      Model.buildNormals (Model.build p).positions (Model.build p).indices
        (effNr p.Nr * effNu p.Nu) ∧
    (Model.norm3 (Model.meshNormalAt (Model.build p) v) = 1 ∨
      Model.meshNormalAt (Model.build p) v = (0, 0, 1)) ∧
    Model.meshNormalAt (Model.build p) v ≠ (0, 0, 0) ∧
    Model.norm3 (Model.meshNormalAt (Model.build p) v) ≠ 0 := by
  have hm := meshNormalAt_build p v hv
  have hunit : Model.norm3 (Model.meshNormalAt (Model.build p) v) = 1 := by
    rw [hm]; exact norm3_normalizeVec _
  have hzero3 : Model.norm3 ((0, 0, 0) : ℝ × ℝ × ℝ) = 0 := by
    unfold Model.norm3
    norm_num
  refine ⟨rfl, Or.inl hunit, ?_, by rw [hunit]; norm_num⟩
  intro hzero
  rw [hzero, hzero3] at hunit
  exact absurd hunit (by norm_num)

/-- Claim C6 (amended): for every radial step i the first and last angular
column vertices (i, 0) and (i, Nu-1) are distinct vertices whose positions
are equal; their computed normals however need not be equal, each seam
vertex accumulating only the faces on its own side of the seam. -/
theorem claim_C6 (p : Params) (i : ℕ) (hi : i < effNr p.Nr) :
    Model.vid (effNu p.Nu) i 0 ≠ Model.vid (effNu p.Nu) i (effNu p.Nu - 1) ∧
    Model.posVec (Model.build p).positions (Model.vid (effNu p.Nu) i 0) =
      Model.posVec (Model.build p).positions
        (Model.vid (effNu p.Nu) i (effNu p.Nu - 1)) := by
  have hNu3 := three_le_effNu p.Nu
  constructor
  · unfold Model.vid; omega
  · have hj0 : (0 : ℕ) < effNu p.Nu := by omega
    have hj1 : effNu p.Nu - 1 < effNu p.Nu := by omega
    have e0 := posVec_build p (effNr p.Nr) (effNu p.Nu) i 0 hi hj0
    have e1 := posVec_build p (effNr p.Nr) (effNu p.Nu) i (effNu p.Nu - 1)
      hi hj1
    rw [show (Model.build p).positions =
      Model.buildPositions p (effNr p.Nr) (effNu p.Nu) from rfl]
    unfold Model.vid
    rw [e0, e1]
    have ha0 : Model.angleAt (effNu p.Nu) 0 = 0 := by
      unfold Model.angleAt Model.sParam; simp
    have ha1 : Model.angleAt (effNu p.Nu) (effNu p.Nu - 1) = Real.pi * 2 := by
      unfold Model.angleAt Model.sParam
      rw [show (((effNu p.Nu - 1 : ℕ) : ℝ)) = (effNu p.Nu : ℝ) - 1 by
        rw [Nat.cast_sub (by omega), Nat.cast_one]]
      have hne : ((effNu p.Nu : ℝ)) - 1 ≠ 0 := by
        have h3 : (3 : ℝ) ≤ (effNu p.Nu : ℝ) := by exact_mod_cast hNu3
        intro hc; linarith
      rw [div_self hne]; ring
    rw [ha0, ha1]
    simp only [Model.surfacePoint]
    have hc : Real.cos (Real.pi * 2) = Real.cos 0 := by
      rw [mul_comm, Real.cos_two_pi, Real.cos_zero]
    have hs : Real.sin (Real.pi * 2) = Real.sin 0 := by
      rw [mul_comm, Real.sin_two_pi, Real.sin_zero]
    rw [hc, hs]

/-- Claim C6 counterexample: with the seam parameters (a=1, n=0, m=1, b=1,
phi = pi/2, Nr=2, Nu=3) the seam vertices (1, 0) and (1, Nu-1), ids 3 and 5,
get different computed normals, (0,1,0) and (0,-1,0): vertex 3 accumulates
the faces of the first quad column only and vertex 5 the faces of the last
quad column only. -/
theorem claim_C6_counterexample :
    1 < effNr seamParams.Nr ∧
    Model.vid (effNu seamParams.Nu) 1 0 = 3 ∧
    Model.vid (effNu seamParams.Nu) 1 (effNu seamParams.Nu - 1) = 5 ∧
    Model.meshNormalAt (Model.build seamParams) 3 ≠
      Model.meshNormalAt (Model.build seamParams) 5 := by
  refine ⟨by decide, by decide, by decide, ?_⟩
  have hNr : effNr seamParams.Nr = 2 := by decide
  have hNu : effNu seamParams.Nu = 3 := by decide
  have hr0 : Model.radiusAt seamParams.b 2 0 = 0 := by
    unfold Model.radiusAt Model.tParam; norm_num
  have hr1 : Model.radiusAt seamParams.b 2 1 = 1 := by
    unfold Model.radiusAt Model.tParam; norm_num [seamParams]
  have ha0 : Model.angleAt 3 0 = 0 := by
    unfold Model.angleAt Model.sParam; norm_num
  have ha1 : Model.angleAt 3 1 = Real.pi := by
    unfold Model.angleAt Model.sParam; norm_num; ring
  have ha2 : Model.angleAt 3 2 = Real.pi * 2 := by
    unfold Model.angleAt Model.sParam; norm_num
  have hs00 : Model.surfacePoint 0 0 seamParams = (0, 0, 1) := by
    unfold Model.surfacePoint
    norm_num [seamParams, Real.sin_pi_div_two]
  have hs0pi : Model.surfacePoint 0 Real.pi seamParams = (0, 0, 1) := by
    unfold Model.surfacePoint
    norm_num [seamParams, Real.sin_pi_div_two]
  have hs0tau : Model.surfacePoint 0 (Real.pi * 2) seamParams = (0, 0, 1) := by
    unfold Model.surfacePoint
    norm_num [seamParams, Real.sin_pi_div_two]
  have hs10 : Model.surfacePoint 1 0 seamParams = (1, 0, -1) := by
    unfold Model.surfacePoint
    norm_num [seamParams, Real.sin_add, Real.sin_pi, Real.cos_pi,
      Real.sin_pi_div_two, Real.cos_pi_div_two]
  have hs1pi : Model.surfacePoint 1 Real.pi seamParams = (-1, 0, -1) := by
    unfold Model.surfacePoint
    norm_num [seamParams, Real.sin_add, Real.sin_pi, Real.cos_pi,
      Real.sin_pi_div_two, Real.cos_pi_div_two]
  have hs1tau : Model.surfacePoint 1 (Real.pi * 2) seamParams
      = (1, 0, -1) := by
    unfold Model.surfacePoint
    norm_num [seamParams, Real.sin_add, Real.sin_pi, Real.cos_pi,
      Real.sin_pi_div_two, Real.cos_pi_div_two, mul_comm Real.pi 2,
      Real.cos_two_pi, Real.sin_two_pi]
  have hp0 : Model.posVec (Model.buildPositions seamParams 2 3) 0
      = (0, 0, 1) := by
    have h := posVec_build seamParams 2 3 0 0 (by omega) (by omega)
    rw [show 0 * 3 + 0 = 0 by norm_num] at h
    rw [h, hr0, ha0, hs00]
  have hp1 : Model.posVec (Model.buildPositions seamParams 2 3) 1
      = (0, 0, 1) := by
    have h := posVec_build seamParams 2 3 0 1 (by omega) (by omega)
    rw [show 0 * 3 + 1 = 1 by norm_num] at h
    rw [h, hr0, ha1, hs0pi]
  have hp2 : Model.posVec (Model.buildPositions seamParams 2 3) 2
      = (0, 0, 1) := by
    have h := posVec_build seamParams 2 3 0 2 (by omega) (by omega)
    rw [show 0 * 3 + 2 = 2 by norm_num] at h
    rw [h, hr0, ha2, hs0tau]
  have hp3 : Model.posVec (Model.buildPositions seamParams 2 3) 3
      = (1, 0, -1) := by
    have h := posVec_build seamParams 2 3 1 0 (by omega) (by omega)
    rw [show 1 * 3 + 0 = 3 by norm_num] at h
    rw [h, hr1, ha0, hs10]
  have hp4 : Model.posVec (Model.buildPositions seamParams 2 3) 4
      = (-1, 0, -1) := by
    have h := posVec_build seamParams 2 3 1 1 (by omega) (by omega)
    rw [show 1 * 3 + 1 = 4 by norm_num] at h
    rw [h, hr1, ha1, hs1pi]
  have hp5 : Model.posVec (Model.buildPositions seamParams 2 3) 5
      = (1, 0, -1) := by
    have h := posVec_build seamParams 2 3 1 2 (by omega) (by omega)
    rw [show 1 * 3 + 2 = 5 by norm_num] at h
    rw [h, hr1, ha2, hs1tau]
  have hf1 : Model.faceNormal (Model.buildPositions seamParams 2 3) 0 3 1
      = (0, 0, 0) := by
    simp only [Model.faceNormal]
    rw [hp0, hp3, hp1]
    norm_num
  have hf2 : Model.faceNormal (Model.buildPositions seamParams 2 3) 3 4 1
      = (0, 4, 0) := by
    simp only [Model.faceNormal]
    rw [hp3, hp4, hp1]
    norm_num
  have hf3 : Model.faceNormal (Model.buildPositions seamParams 2 3) 1 4 2
      = (0, 0, 0) := by
    simp only [Model.faceNormal]
    rw [hp1, hp4, hp2]
    norm_num
  have hf4 : Model.faceNormal (Model.buildPositions seamParams 2 3) 4 5 2
      = (0, -4, 0) := by
    simp only [Model.faceNormal]
    rw [hp4, hp5, hp2]
    norm_num
  have hidx : Model.buildIndices 2 3 = [0, 3, 1, 3, 4, 1, 1, 4, 2, 4, 5, 2] :=
    by decide
  have hacc3 : Model.accumFaces (Model.buildPositions seamParams 2 3)
      [0, 3, 1, 3, 4, 1, 1, 4, 2, 4, 5, 2] Model.accumInit 3 = (0, 4, 0) := by
    simp only [Model.accumFaces, Model.addAt, Model.accumInit]
    norm_num [hf1, hf2, hf3, hf4]
  have hacc5 : Model.accumFaces (Model.buildPositions seamParams 2 3)
      [0, 3, 1, 3, 4, 1, 1, 4, 2, 4, 5, 2] Model.accumInit 5
      = (0, -4, 0) := by
    simp only [Model.accumFaces, Model.addAt, Model.accumInit]
    norm_num [hf1, hf2, hf3, hf4]
  have hs16 : Real.sqrt (16 : ℝ) = 4 := by
    rw [show (16 : ℝ) = 4 ^ 2 by norm_num,
      Real.sqrt_sq (by norm_num : (0 : ℝ) ≤ 4)]
  have hvn3 : Model.vertexNormals (Model.buildPositions seamParams 2 3)
      (Model.buildIndices 2 3) 3 = (0, 1, 0) := by
    unfold Model.vertexNormals
    rw [hidx, hacc3]
    simp only [Model.normalizeVec]
    norm_num [hs16]
  have hvn5 : Model.vertexNormals (Model.buildPositions seamParams 2 3)
      (Model.buildIndices 2 3) 5 = (0, -1, 0) := by
    unfold Model.vertexNormals
    rw [hidx, hacc5]
    simp only [Model.normalizeVec]
    norm_num [hs16]
  have hm3 := meshNormalAt_build seamParams 3 (by decide)
  have hm5 := meshNormalAt_build seamParams 5 (by decide)
  rw [hNr, hNu] at hm3 hm5
  rw [hm3, hm5, hvn3, hvn5]
  intro h
  have h2 : (1 : ℝ) = -1 := congrArg (fun t => t.2.1) h
  norm_num at h2

/-- Claim C7: for the vertex v = i Nu + j the texture coordinates are
uvs[2v] = j/(Nu-1) and uvs[2v+1] = i/(Nr-1); both components lie in [0,1],
and the second component is 0 exactly when i = 0 and 1 exactly when
i = Nr - 1. -/
theorem claim_C7 (p : Params) (i j : ℕ)
    (hi : i < effNr p.Nr) (hj : j < effNu p.Nu) :
    ((Model.build p).texcoords[2 * (i * effNu p.Nu + j)]? =
      some ((j : ℝ) / ((effNu p.Nu : ℝ) - 1)) ∧
    (Model.build p).texcoords[2 * (i * effNu p.Nu + j) + 1]? =
      some ((i : ℝ) / ((effNr p.Nr : ℝ) - 1))) ∧
    (0 ≤ (j : ℝ) / ((effNu p.Nu : ℝ) - 1) ∧
      (j : ℝ) / ((effNu p.Nu : ℝ) - 1) ≤ 1) ∧
    (0 ≤ (i : ℝ) / ((effNr p.Nr : ℝ) - 1) ∧
      (i : ℝ) / ((effNr p.Nr : ℝ) - 1) ≤ 1) ∧
    ((i : ℝ) / ((effNr p.Nr : ℝ) - 1) = 0 ↔ i = 0) ∧
    ((i : ℝ) / ((effNr p.Nr : ℝ) - 1) = 1 ↔ i = effNr p.Nr - 1) := by
  have hNr2 : 2 ≤ effNr p.Nr := two_le_effNr p.Nr
  have hNu3 : 3 ≤ effNu p.Nu := three_le_effNu p.Nu
  have hNrpos : (0 : ℝ) < (effNr p.Nr : ℝ) - 1 := by
    have h : (2 : ℝ) ≤ (effNr p.Nr : ℝ) := by exact_mod_cast hNr2
    linarith
  have hNupos : (0 : ℝ) < (effNu p.Nu : ℝ) - 1 := by
    have h : (3 : ℝ) ≤ (effNu p.Nu : ℝ) := by exact_mod_cast hNu3
    linarith
  have hiR : (i : ℝ) + 1 ≤ (effNr p.Nr : ℝ) := by exact_mod_cast hi
  have hjR : (j : ℝ) + 1 ≤ (effNu p.Nu : ℝ) := by exact_mod_cast hj
  have h0 := buildUVs_getElem (effNr p.Nr) (effNu p.Nu) i j 0 hi hj
    (by omega)
  have h1 := buildUVs_getElem (effNr p.Nr) (effNu p.Nu) i j 1 hi hj
    (by omega)
  refine ⟨⟨?_, ?_⟩, ⟨?_, ?_⟩, ⟨?_, ?_⟩, ?_, ?_⟩
  · rw [show 2 * (i * effNu p.Nu + j) = 2 * (i * effNu p.Nu + j) + 0
      by ring]
    rw [show (Model.build p).texcoords =
      Model.buildUVs (effNr p.Nr) (effNu p.Nu) from rfl, h0]
    rfl
  · rw [show (Model.build p).texcoords =
      Model.buildUVs (effNr p.Nr) (effNu p.Nu) from rfl, h1]
    rfl
  · exact div_nonneg (Nat.cast_nonneg j) (le_of_lt hNupos)
  · rw [div_le_one hNupos]; linarith
  · exact div_nonneg (Nat.cast_nonneg i) (le_of_lt hNrpos)
  · rw [div_le_one hNrpos]; linarith
  · rw [div_eq_zero_iff]
    constructor
    · intro h
      rcases h with h | h
      · exact_mod_cast h
      · exact absurd h (ne_of_gt hNrpos)
    · intro h; subst h; left; exact Nat.cast_zero
  · rw [div_eq_one_iff_eq (ne_of_gt hNrpos)]
    rw [show ((effNr p.Nr : ℝ)) - 1 = ((effNr p.Nr - 1 : ℕ) : ℝ) by
      rw [Nat.cast_sub (by omega), Nat.cast_one]]
    exact Nat.cast_inj

/-- Claim C8: the 32-bit index type is chosen, with the extended-range
warning path, exactly when the vertex count Nr Nu exceeds 65535; otherwise
the 16-bit type is chosen.  A vertex count of exactly 65536 (256 x 256)
selects wide indices and 65535 (5 x 13107) selects narrow indices. -/
theorem claim_C8 (p : Params) :
    ((Model.build p).useUint32 = true ↔ 65535 < effNr p.Nr * effNu p.Nu) ∧
    (Model.uploadIndexType (Model.build p) = Model.IndexType.unsignedInt ↔
      (Model.build p).useUint32 = true) ∧
    Model.uploadWarns (Model.build p) false = (Model.build p).useUint32 ∧
    (Model.build
      (Params.mk 0 0 0 0 0 (JSNum.finite 256) (JSNum.finite 256))).useUint32
      = true ∧
    (Model.build
      (Params.mk 0 0 0 0 0 (JSNum.finite 5) (JSNum.finite 13107))).useUint32
      = false := by
  refine ⟨decide_eq_true_iff, ?_, ?_, by decide, by decide⟩
  · cases hb : (Model.build p).useUint32 <;>
      simp [Model.uploadIndexType, hb]
  · simp [Model.uploadWarns]

/-- Unfolded form of ToInt32 on a finite value. -/
theorem toInt32_finite (q : ℚ) :
    toInt32 (JSNum.finite q) =
      if 2147483648 ≤ jsTrunc q % 4294967296
      then jsTrunc q % 4294967296 - 4294967296
      else jsTrunc q % 4294967296 := rfl

/-- Claim C10 (amended): build accepts any numeric Nr/Nu; each is first
truncated toward zero by the ToInt32 coercion, which maps NaN to 0 and wraps
modulo 2^32 into the signed 32-bit range, and only then clamped.  Nr = 2.9
builds with Nr = 2, Nr = NaN builds with Nr = 2, and any negative value down
to -2^31 builds with Nr = 2; more negative values first wrap modulo 2^32 and
can yield a larger Nr. -/
theorem claim_C10 :
    (∀ z : ℤ, jsTrunc ((z : ℚ)) = z) ∧
    (∀ q : ℚ, 0 ≤ q → jsTrunc q = ⌊q⌋) ∧
    (∀ q : ℚ, q < 0 → jsTrunc q = ⌈q⌉) ∧
    toInt32 JSNum.nan = 0 ∧
    (∀ z : ℤ, toInt32 (JSNum.finite ((z : ℚ) + 4294967296)) =
      toInt32 (JSNum.finite ((z : ℚ)))) ∧
    (∀ z : ℤ, -2147483648 ≤ z → z < 2147483648 →
      toInt32 (JSNum.finite ((z : ℚ))) = z) ∧
    effNr (JSNum.finite (29 / 10)) = 2 ∧
    effNr JSNum.nan = 2 ∧
    (∀ q : ℚ, -2147483648 ≤ q → q < 0 → effNr (JSNum.finite q) = 2) := by
  refine ⟨jsTrunc_intCast, jsTrunc_of_nonneg, jsTrunc_of_neg, rfl,
    ?_, ?_, ?_, by decide, ?_⟩
  · intro z
    have hcast : ((z : ℚ)) + 4294967296 = (((z + 4294967296 : ℤ)) : ℚ) := by
      push_cast; ring
    rw [hcast, toInt32_finite, toInt32_finite, jsTrunc_intCast,
      jsTrunc_intCast,
      show (z + 4294967296) % 4294967296 = z % 4294967296 by omega]
  · intro z h1 h2
    rw [toInt32_finite, jsTrunc_intCast]
    split_ifs with h <;> omega
  · have ht : jsTrunc ((29 / 10 : ℚ)) = 2 := by
      rw [jsTrunc_of_nonneg _ (by norm_num)]
      norm_num
    unfold effNr
    rw [toInt32_finite, ht]
    norm_num
    rfl
  · intro q h1 h2
    have ht : jsTrunc q = ⌈q⌉ := jsTrunc_of_neg q h2
    have hle : ⌈q⌉ ≤ 0 := by
      rw [Int.ceil_le]
      push_cast
      exact h2.le
    have hge : (-2147483648 : ℤ) ≤ ⌈q⌉ := by
      have hq := Int.le_ceil q
      have h3 : ((-2147483648 : ℤ) : ℚ) ≤ (⌈q⌉ : ℚ) :=
        le_trans (by exact_mod_cast h1) hq
      exact_mod_cast h3
    unfold effNr
    rw [toInt32_finite, ht]
    split_ifs with h <;> omega

/-- Claim C10 counterexample: the negative value -4294967291, of magnitude
at least 2^31, wraps to 5 under ToInt32, so build uses Nr = 5, not the
claimed Nr = 2. -/
theorem claim_C10_counterexample :
    ((-4294967291 : ℚ)) < 0 ∧
    toInt32 (JSNum.finite (-4294967291)) = 5 ∧
    effNr (JSNum.finite (-4294967291)) = 5 ∧
    ¬ effNr (JSNum.finite (-4294967291)) = 2 :=
  ⟨by norm_num, by decide, by decide, by decide⟩

/-- Claim C9: build clamps the resolution to Nr at least 2 and Nu at least 3
before sizing any buffer, so it never fails on invalid resolution and every
produced mesh has the clamped dimensions, at least one quad included. -/
theorem claim_C9 (p : Params) :
    2 ≤ effNr p.Nr ∧ 3 ≤ effNu p.Nu ∧
    (Model.build p).positions.length = 3 * (effNr p.Nr * effNu p.Nu) ∧
    1 ≤ (effNr p.Nr - 1) * (effNu p.Nu - 1) := by
  have h1 := two_le_effNr p.Nr
  have h2 := three_le_effNu p.Nu
  exact ⟨h1, h2, buildPositions_length p _ _,
    Nat.mul_pos (by omega) (by omega)⟩

/-! Witnesses: the theorems with hypotheses, applied at concrete inputs. -/

/-- Witness for claim C2 at the sample parameters with i = 0, j = 0. -/
theorem claim_C2_witness :
    (0 < effNr sampleParams.Nr ∧ 0 < effNu sampleParams.Nu) ∧
    (((Model.build sampleParams).positions[3 *
        (0 * effNu sampleParams.Nu + 0)]? =
      some (sampleParams.b * ((0 : ℕ) : ℝ) /
          ((effNr sampleParams.Nr : ℝ) - 1) *
        Real.cos (2 * Real.pi * ((0 : ℕ) : ℝ) /
          ((effNu sampleParams.Nu : ℝ) - 1))) ∧
    (Model.build sampleParams).positions[3 *
        (0 * effNu sampleParams.Nu + 0) + 1]? =
      some (sampleParams.b * ((0 : ℕ) : ℝ) /
          ((effNr sampleParams.Nr : ℝ) - 1) *
        Real.sin (2 * Real.pi * ((0 : ℕ) : ℝ) /
          ((effNu sampleParams.Nu : ℝ) - 1))) ∧
    (Model.build sampleParams).positions[3 *
        (0 * effNu sampleParams.Nu + 0) + 2]? =
      some (sampleParams.a * Real.exp (-sampleParams.n *
          (sampleParams.b * ((0 : ℕ) : ℝ) /
            ((effNr sampleParams.Nr : ℝ) - 1))) *
        Real.sin (sampleParams.m * Real.pi / sampleParams.b *
          (sampleParams.b * ((0 : ℕ) : ℝ) /
            ((effNr sampleParams.Nr : ℝ) - 1)) + sampleParams.phi))) ∧
    ((0 : ℕ) = 0 → sampleParams.b * ((0 : ℕ) : ℝ) /
      ((effNr sampleParams.Nr : ℝ) - 1) = 0) ∧
    ((0 : ℕ) = effNr sampleParams.Nr - 1 → sampleParams.b * ((0 : ℕ) : ℝ) /
      ((effNr sampleParams.Nr : ℝ) - 1) = sampleParams.b) ∧
    ((0 : ℕ) = 0 → 2 * Real.pi * ((0 : ℕ) : ℝ) /
      ((effNu sampleParams.Nu : ℝ) - 1) = 0) ∧
    ((0 : ℕ) = effNu sampleParams.Nu - 1 → 2 * Real.pi * ((0 : ℕ) : ℝ) /
      ((effNu sampleParams.Nu : ℝ) - 1) = 2 * Real.pi)) :=
  ⟨⟨by decide, by decide⟩, claim_C2 sampleParams 0 0 (by decide) (by decide)⟩

/-- Witness for claim C4: index 0 occurs in the sample index buffer. -/
theorem claim_C4_witness :
    (0 ∈ (Model.build sampleParams).indices) ∧
    (0 < effNr sampleParams.Nr * effNu sampleParams.Nu ∧
      3 * 0 + 2 < (Model.build sampleParams).positions.length) :=
  ⟨by decide, claim_C4 sampleParams 0 (by decide)⟩

/-- Witness for claim C5 at vertex 0 of the sample mesh. -/
theorem claim_C5_witness :
    (0 < effNr sampleParams.Nr * effNu sampleParams.Nu) ∧
    ((Model.build sampleParams).normals =
      Model.buildNormals (Model.build sampleParams).positions
        (Model.build sampleParams).indices
        (effNr sampleParams.Nr * effNu sampleParams.Nu) ∧
    (Model.norm3 (Model.meshNormalAt (Model.build sampleParams) 0) = 1 ∨
      Model.meshNormalAt (Model.build sampleParams) 0 = (0, 0, 1)) ∧
    Model.meshNormalAt (Model.build sampleParams) 0 ≠ (0, 0, 0) ∧
    Model.norm3 (Model.meshNormalAt (Model.build sampleParams) 0) ≠ 0) :=
  ⟨by decide, claim_C5 sampleParams 0 (by decide)⟩

/-- Witness for claim C6 (amended) at radial step 0 of the sample mesh. -/
theorem claim_C6_witness :
    (0 < effNr sampleParams.Nr) ∧
    (Model.vid (effNu sampleParams.Nu) 0 0 ≠
      Model.vid (effNu sampleParams.Nu) 0 (effNu sampleParams.Nu - 1) ∧
    Model.posVec (Model.build sampleParams).positions
        (Model.vid (effNu sampleParams.Nu) 0 0) =
      Model.posVec (Model.build sampleParams).positions
        (Model.vid (effNu sampleParams.Nu) 0 (effNu sampleParams.Nu - 1))) :=
  ⟨by decide, claim_C6 sampleParams 0 (by decide)⟩

/-- Witness for claim C7 at the sample parameters with i = 0, j = 0. -/
theorem claim_C7_witness :
    (0 < effNr sampleParams.Nr ∧ 0 < effNu sampleParams.Nu) ∧
    (((Model.build sampleParams).texcoords[2 *
        (0 * effNu sampleParams.Nu + 0)]? =
      some (((0 : ℕ) : ℝ) / ((effNu sampleParams.Nu : ℝ) - 1)) ∧
    (Model.build sampleParams).texcoords[2 *
        (0 * effNu sampleParams.Nu + 0) + 1]? =
      some (((0 : ℕ) : ℝ) / ((effNr sampleParams.Nr : ℝ) - 1))) ∧
    (0 ≤ ((0 : ℕ) : ℝ) / ((effNu sampleParams.Nu : ℝ) - 1) ∧
      ((0 : ℕ) : ℝ) / ((effNu sampleParams.Nu : ℝ) - 1) ≤ 1) ∧
    (0 ≤ ((0 : ℕ) : ℝ) / ((effNr sampleParams.Nr : ℝ) - 1) ∧
      ((0 : ℕ) : ℝ) / ((effNr sampleParams.Nr : ℝ) - 1) ≤ 1) ∧
    (((0 : ℕ) : ℝ) / ((effNr sampleParams.Nr : ℝ) - 1) = 0 ↔ (0 : ℕ) = 0) ∧
    (((0 : ℕ) : ℝ) / ((effNr sampleParams.Nr : ℝ) - 1) = 1 ↔
      (0 : ℕ) = effNr sampleParams.Nr - 1)) :=
  ⟨⟨by decide, by decide⟩, claim_C7 sampleParams 0 0 (by decide) (by decide)⟩

/-- Witness for claim C10 (amended): the negative value -5 is within the
non-wrapping range and builds with Nr = 2. -/
theorem claim_C10_witness :
    ((-2147483648 : ℚ) ≤ (-5 : ℚ) ∧ (-5 : ℚ) < 0) ∧
    effNr (JSNum.finite (-5)) = 2 :=
  ⟨⟨by decide, by decide⟩,
    claim_C10.2.2.2.2.2.2.2.2 (-5) (by decide) (by decide)⟩

end CGW
